import Mathlib

/-!
Verification development for the TravianMap server core
(`src/server/src/database.rs`, `src/server/src/main.rs`).

The Rust code is shallowly embedded: strings are modelled at the level of
their character lists (`List Char`; the Rust code indexes by bytes, which
coincides with characters on the ASCII inputs all claims are about),
machine integers (`i32`, `i64`) are modelled as `Int` (no arithmetic in the
embedded code can overflow on the inputs considered, except the documented
`as usize` cast which is modelled explicitly with its mod-2^64 semantics),
and the PostgreSQL store is modelled as an explicit state: a list of
(table name, rows) pairs manipulated by the same operations the SQL
statements of the source perform.  Fallible operations return `Except`;
Rust panics are modelled by a dedicated result constructor.
-/

namespace TravianMap

/-- Single quote character `'` (ASCII 39), written via `Char.ofNat`. -/
def squote : Char := Char.ofNat 39

/-- Double quote character (ASCII 34). -/
def dquote : Char := Char.ofNat 34

/-- Backtick character (ASCII 96). -/
def btick : Char := Char.ofNat 96

/-- Whitespace predicate used by Rust `str::trim` (ASCII subset; the inputs
of every claim are ASCII). -/
def isWS (c : Char) : Bool := c = ' ' || c = '\t' || c = '\n' || c = '\r'

/-- Drop matching characters from the right end of a list. -/
def dropTail (p : Char → Bool) (l : List Char) : List Char :=
  (l.reverse.dropWhile p).reverse

/-- Trim characters satisfying `p` from both ends (Rust `trim` / `trim_matches`). -/
def trimBy (p : Char → Bool) (l : List Char) : List Char :=
  dropTail p (l.dropWhile p)

/-- Rust `str::trim`: strip leading and trailing whitespace. -/
def trimChars (l : List Char) : List Char := trimBy isWS l

/-- Rust `str::trim_matches(c)`: strip all leading and trailing occurrences of `c`. -/
def trimMatchesCh (c : Char) (l : List Char) : List Char := trimBy (· = c) l

/-- Decimal digit test (Rust `char::is_ascii_digit`, as used by integer parsing). -/
def isDigitCh (c : Char) : Bool := '0' ≤ c && c ≤ '9'

/-- Numeric value of a digit character. -/
def digitVal (c : Char) : Nat := c.toNat - '0'.toNat

/-- Value of a digit string, `none` if any character is not a digit. -/
def digitsVal : List Char → Nat → Option Nat
  | [], acc => some acc
  | c :: cs, acc =>
      if isDigitCh c then digitsVal cs (acc * 10 + digitVal c) else none

/-- Rust `str::parse::<i32>()`: optional sign, then one or more ASCII digits,
whole string consumed, value within the `i32` range; anything else is `Err`
(modelled as `none`). -/
def parseI32 (s : List Char) : Option Int :=
  let signed : Int × List Char :=
    match s with
    | '+' :: r => (1, r)
    | '-' :: r => (-1, r)
    | r => (1, r)
  match signed.2 with
  | [] => none
  | _ =>
    match digitsVal signed.2 0 with
    | none => none
    | some n =>
      let v : Int := signed.1 * (n : Int)
      if -(2 ^ 31) ≤ v ∧ v < 2 ^ 31 then some v else none

/-- State of the hand-rolled tokenizer of `parse_x_world_values`
(`database.rs:446-449`): accumulated fields, current field, whether we are
inside a quoted span, and the opening quote character. -/
structure TokState where
  parts : List (List Char)
  current : List Char
  inQ : Bool
  qc : Char
deriving DecidableEq

/-- Is `c` one of the two quote characters recognized by the tokenizer? -/
def isQuote (c : Char) : Bool := c = dquote || c = squote

/-- One character step of the tokenizer loop (`database.rs:451-470`):
quote characters toggle the quoted state (only the matching quote closes a
span) and are kept in the field; a comma outside quotes pushes the trimmed
current field; every other character is appended to the current field. -/
def tokStep (st : TokState) (c : Char) : TokState :=
  if isQuote c then
    if st.inQ = false then ⟨st.parts, st.current ++ [c], true, c⟩
    else if c = st.qc then ⟨st.parts, st.current ++ [c], false, st.qc⟩
    else ⟨st.parts, st.current ++ [c], st.inQ, st.qc⟩
  else if c = ',' ∧ st.inQ = false then ⟨st.parts ++ [trimChars st.current], [], st.inQ, st.qc⟩
  else ⟨st.parts, st.current ++ [c], st.inQ, st.qc⟩

/-- Run the tokenizer loop over the whole input; `in_quotes` starts `false`
and `quote_char` starts `'"'` (`database.rs:448-449`). -/
def tokRun (cs : List Char) : TokState := cs.foldl tokStep ⟨[], [], false, dquote⟩

/-- The field list produced by the tokenizer of `parse_x_world_values`:
after the loop, the final field is pushed only if it is nonempty
(`database.rs:471-473`). -/
def tokenize (cs : List Char) : List (List Char) :=
  let st := tokRun cs
  if st.current = [] then st.parts else st.parts ++ [trimChars st.current]

/-- Quote-tracking automaton of the specification ("opened on first
occurrence of `'` or `"`, closed on a matching occurrence of the same
character"); identical transitions to the tokenizer's quote handling, used
to define the spec-side notions of "balanced quoting" and "comma outside a
quoted span" independently of the field accumulation. -/
def qNext (inQ : Bool) (qc : Char) (c : Char) : Bool × Char :=
  if isQuote c then
    if inQ = false then (true, c)
    else if c = qc then (false, qc)
    else (inQ, qc)
  else (inQ, qc)

/-- Count of commas outside quoted spans, starting from a given quote state. -/
def countTop (inQ : Bool) (qc : Char) : List Char → Nat
  | [] => 0
  | c :: cs =>
      (if c = ',' ∧ inQ = false then 1 else 0) +
        countTop (qNext inQ qc c).1 (qNext inQ qc c).2 cs

/-- Number of top-level (unquoted) commas of the input. -/
def topCommas (cs : List Char) : Nat := countTop false dquote cs

/-- Final quote state after scanning the input. -/
def qFinal (inQ : Bool) (qc : Char) : List Char → Bool × Char
  | [] => (inQ, qc)
  | c :: cs => qFinal (qNext inQ qc c).1 (qNext inQ qc c).2 cs

/-- Spec-side notion: the input has balanced quoting when the scan ends
outside any quoted span. -/
@[reducible]
def balanced (cs : List Char) : Prop := (qFinal false dquote cs).1 = false

/-- Untrimmed variant of the tokenizer step: identical splitting, but raw
(untrimmed) fields are accumulated.  Spec-side definition used to state that
every extracted field is exactly the whitespace-trimmed raw field. -/
def rawStep (st : TokState) (c : Char) : TokState :=
  if isQuote c then
    if st.inQ = false then ⟨st.parts, st.current ++ [c], true, c⟩
    else if c = st.qc then ⟨st.parts, st.current ++ [c], false, st.qc⟩
    else ⟨st.parts, st.current ++ [c], st.inQ, st.qc⟩
  else if c = ',' ∧ st.inQ = false then ⟨st.parts ++ [st.current], [], st.inQ, st.qc⟩
  else ⟨st.parts, st.current ++ [c], st.inQ, st.qc⟩

/-- Raw (untrimmed) field list: same splitting as `tokenize`, fields kept verbatim. -/
def rawTokenize (cs : List Char) : List (List Char) :=
  let st := cs.foldl rawStep ⟨[], [], false, dquote⟩
  if st.current = [] then st.parts else st.parts ++ [st.current]

/-- A parsed `x_world` record (`struct ParsedVillage`, `database.rs:430-442`). -/
structure ParsedVillage where
  worldid : Option Int
  x : Int
  y : Int
  tid : Option Int
  vid : Option Int
  village : List Char
  uid : Option Int
  player : Option (List Char)
  aid : Option Int
  alliance : Option (List Char)
  population : Int
deriving DecidableEq

/-- Strip surrounding quotes the way the Rust code does:
`.trim_matches('\x27').trim_matches('\x22')` (single quotes first). -/
def stripQuotes (l : List Char) : List Char :=
  trimMatchesCh dquote (trimMatchesCh squote l)

/-- The literal `NULL` marker. -/
def nullLit : List Char := ['N', 'U', 'L', 'L']

/-- `parse_x_world_values` (`database.rs:444-524`): tokenize the value list;
fail when fewer than 11 fields are present; otherwise map fields
positionally with per-column fallbacks (`ok()` for optional ids,
`unwrap_or(0)` for coordinates and population, `NULL`/empty to `None` for
player and alliance names). -/
def parse_x_world_values (cs : List Char) : Option ParsedVillage :=
  let parts := tokenize cs
  if parts.length < 11 then none
  else
    let p7 := parts.getD 7 []
    let p9 := parts.getD 9 []
    some
      { worldid := parseI32 (parts.getD 0 [])
        x := (parseI32 (parts.getD 1 [])).getD 0
        y := (parseI32 (parts.getD 2 [])).getD 0
        tid := parseI32 (parts.getD 3 [])
        vid := parseI32 (parts.getD 4 [])
        village := stripQuotes (parts.getD 5 [])
        uid := parseI32 (parts.getD 6 [])
        player := if p7 = nullLit ∨ p7 = [] then none else some (stripQuotes p7)
        aid := parseI32 (parts.getD 8 [])
        alliance :=
          if parts.length > 9 ∧ ¬p9 = nullLit ∧ ¬p9 = [] then some (stripQuotes p9) else none
        population := (parseI32 (parts.getD 10 [])).getD 0 }

/-- Does `hay` start with `pat`? (Rust `str::starts_with`.) -/
def startsWithCL : List Char → List Char → Bool
  | [], _ => true
  | _ :: _, [] => false
  | p :: ps, c :: cs => c = p && startsWithCL ps cs

/-- Does `pat` occur anywhere in `hay`? (Rust `str::contains`.) -/
def containsSub (pat : List Char) : List Char → Bool
  | [] => pat.isEmpty
  | c :: rest => startsWithCL pat (c :: rest) || containsSub pat rest

/-- Rust `str::find(pat)`: index of the first occurrence of `pat`. -/
def findSub (pat : List Char) : List Char → Option Nat
  | [] => if pat.isEmpty then some 0 else none
  | c :: rest =>
      if startsWithCL pat (c :: rest) then some 0
      else (findSub pat rest).map (· + 1)

/-- Rust `str::find(ch)`: index of the first occurrence of a character. -/
def firstIdxCh (ch : Char) (cs : List Char) : Option Nat := findSub [ch] cs

/-- Rust `str::rfind(ch)`: index of the last occurrence of a character. -/
def lastIdxCh (ch : Char) (cs : List Char) : Option Nat :=
  (firstIdxCh ch cs.reverse).map (fun j => cs.length - 1 - j)

/-- ASCII lowercasing (Rust `str::to_lowercase`; the recognized keywords and
all claim inputs are ASCII). -/
def asciiLower (c : Char) : Char :=
  if 'A' ≤ c ∧ c ≤ 'Z' then Char.ofNat (c.toNat + 32) else c

/-- The literal `x_world` wrapped in backticks. -/
def btickXWorld : List Char := [btick] ++ ('x' :: '_' :: "world".data) ++ [btick]

/-- Outcome of processing one dump line inside the ingestion loop
(`execute_sql_for_server`, `database.rs:385-422`). `panicked` models the
Rust slice panic when the `(`/`)` indices satisfy `start + 1 > end`. -/
inductive LineOutcome where
  | skipped
  | noList
  | panicked
  | parseFailed
  | inserted (v : ParsedVillage)
deriving DecidableEq

/-- Processing of a single line of the dump (`database.rs:385-421`):
trim; skip blanks and comments; recognize `INSERT INTO ... x_world` lines
(case-insensitive); locate the (case-sensitive) `VALUES` keyword; take the
text between the first `(` and the last `)` — slicing
`values_part[start+1..end]` panics when `start + 1 > end` — and hand it to
`parse_x_world_values`.  A parse failure is logged and skipped; a
successful parse is inserted (row insertion itself is modelled as always
succeeding; a storage-level insert error is likewise logged and skipped by
the source). -/
def processLine (line : List Char) : LineOutcome :=
  let t := trimChars line
  if t = [] then .skipped
  else if startsWithCL ['-', '-'] t then .skipped
  else if startsWithCL ['/', '*'] t then .skipped
  else
    let low := t.map asciiLower
    if containsSub "insert into".data low ∧
        (containsSub "x_world".data low ∨ containsSub btickXWorld low) then
      match findSub "VALUES".data t with
      | none => .noList
      | some i =>
        let vp := trimChars (t.drop (i + 6))
        match firstIdxCh '(' vp, lastIdxCh ')' vp with
        | some s, some e =>
          if s + 1 > e then .panicked
          else
            match parse_x_world_values ((vp.drop (s + 1)).take (e - (s + 1))) with
            | none => .parseFailed
            | some v => .inserted v
        | _, _ => .noList
    else .skipped

/-- Split on newline characters (Rust `str::lines`, with a trailing `\r`
stripped per line; Rust additionally drops a final empty segment after a
terminating newline, which is immaterial here because blank lines are
skipped by `processLine`). -/
def splitNL : List Char → List (List Char)
  | [] => [[]]
  | c :: cs =>
      if c = '\n' then [] :: splitNL cs
      else
        match splitNL cs with
        | [] => [[c]]
        | l :: ls => (c :: l) :: ls

/-- Strip one trailing carriage return. -/
def dropCR (l : List Char) : List Char :=
  if l.getLast? = some '\r' then l.dropLast else l

/-- The lines of the dump text. -/
def linesOf (cs : List Char) : List (List Char) := (splitNL cs).map dropCR

/-- A row of a per-(server,date) villages table, with exactly the columns
the modelled code writes and reads (`database.rs:526-552`).  The `SERIAL id`
and timestamp columns, and the `capital`/`isWW`/`wwname` columns (never
populated by ingestion), are omitted: no claim mentions them. -/
structure Row where
  server_id : Int
  worldid : Option Int
  x : Int
  y : Int
  tid : Option Int
  vid : Option Int
  village : List Char
  uid : Option Int
  player : Option (List Char)
  aid : Option Int
  alliance : Option (List Char)
  population : Int
deriving DecidableEq

/-- The row written by `insert_parsed_village_to_table_with_server`
(`database.rs:526-552`): the parsed village tagged with the server id. -/
def toRow (sid : Int) (v : ParsedVillage) : Row :=
  ⟨sid, v.worldid, v.x, v.y, v.tid, v.vid, v.village, v.uid, v.player, v.aid, v.alliance,
    v.population⟩

/-- The PostgreSQL store, modelled as the list of existing tables (name and
rows).  Table names are character lists; the naming-by-string-formatting of
the source is modelled verbatim since the retention logic depends on it. -/
structure DBState where
  tables : List (List Char × List Row)
deriving DecidableEq

/-- `information_schema` existence test for a table name. -/
def tableExists (st : DBState) (name : List Char) : Bool :=
  st.tables.any (fun t => t.1 = name)

/-- Rows of the named table (empty if the table does not exist; every
modelled query checks existence first where the source does). -/
def getTableRows (st : DBState) (name : List Char) : List Row :=
  match st.tables.find? (fun t => t.1 = name) with
  | some t => t.2
  | none => []

/-- Apply `f` to the rows of the first table with the given name. -/
def updAux (name : List Char) (f : List Row → List Row) :
    List (List Char × List Row) → List (List Char × List Row)
  | [] => []
  | t :: ts => if t.1 = name then (t.1, f t.2) :: ts else t :: updAux name f ts

/-- Update the named table's rows in place. -/
def updateTable (name : List Char) (f : List Row → List Row) (st : DBState) : DBState :=
  ⟨updAux name f st.tables⟩

/-- `CREATE TABLE IF NOT EXISTS` (`create_table_for_server_and_date`,
`database.rs:33-78`; the index creations have no observable effect in the
model). -/
def createTableIfAbsent (name : List Char) (st : DBState) : DBState :=
  if tableExists st name then st else ⟨st.tables ++ [(name, [])]⟩

/-- `DELETE FROM {table} WHERE server_id = $1` (`database.rs:378-379`). -/
def deleteWhereServer (name : List Char) (sid : Int) (st : DBState) : DBState :=
  updateTable name (fun rs => rs.filter (fun r => ¬r.server_id = sid)) st

/-- `INSERT INTO {table} ... VALUES ...`: append one row. -/
def insertRow (name : List Char) (r : Row) (st : DBState) : DBState :=
  updateTable name (fun rs => rs ++ [r]) st

/-- `DROP TABLE IF EXISTS {name}` (idempotent; dropping an absent table is a no-op). -/
def dropTable (name : List Char) (st : DBState) : DBState :=
  ⟨st.tables.filter (fun t => ¬t.1 = name)⟩

/-- A calendar date, as used for partition naming. -/
structure Date where
  y : Nat
  m : Nat
  d : Nat
deriving DecidableEq

/-- Decimal digit character. -/
def digitCh (n : Nat) : Char := Char.ofNat (48 + n)

/-- Two-digit zero-padded decimal (chrono `%m` / `%d` formatting). -/
def pad2 (n : Nat) : List Char := [digitCh (n / 10 % 10), digitCh (n % 10)]

/-- Four-digit zero-padded decimal (chrono `%Y` formatting, for years `0..=9999`). -/
def pad4 (n : Nat) : List Char :=
  [digitCh (n / 1000 % 10), digitCh (n / 100 % 10), digitCh (n / 10 % 10), digitCh (n % 10)]

/-- `date.format("%Y_%m_%d")`. -/
def fmtDate (dt : Date) : List Char := pad4 dt.y ++ ['_'] ++ pad2 dt.m ++ ['_'] ++ pad2 dt.d

/-- `get_table_name_for_server_and_date` (`database.rs:19-21`):
`villages_server_{id}_{Y_m_d}`. -/
def serverTableName (sid : Int) (dt : Date) : List Char :=
  "villages_server_".data ++ (toString sid).data ++ ['_'] ++ fmtDate dt

/-- `get_table_name_for_date` (`database.rs:23-26`): the name for the
default server id 1. -/
def tableNameForDate (dt : Date) : List Char := serverTableName 1 dt

/-- Strip an exact character-list prefix, returning the remainder. -/
def dropPre : List Char → List Char → Option (List Char)
  | [], rest => some rest
  | _ :: _, [] => none
  | p :: ps, c :: cs => if c = p then dropPre ps cs else none

/-- Read exactly `n` decimal digits, returning their value and the rest. -/
def readNDigits : Nat → Nat → List Char → Option (Nat × List Char)
  | 0, acc, cs => some (acc, cs)
  | _ + 1, _, [] => none
  | n + 1, acc, c :: cs =>
      if isDigitCh c then readNDigits n (acc * 10 + digitVal c) cs else none

/-- Expect a single given character. -/
def expectCh (ch : Char) : List Char → Option (List Char)
  | [] => none
  | c :: cs => if c = ch then some cs else none

/-- Leap year (proleptic Gregorian, as `chrono::NaiveDate`). -/
def isLeap (y : Nat) : Bool := y % 4 = 0 && (¬y % 100 = 0 || y % 400 = 0)

/-- Days in a month. -/
def daysInMonth (y m : Nat) : Nat :=
  if m = 2 then (if isLeap y then 29 else 28)
  else if m = 4 ∨ m = 6 ∨ m = 9 ∨ m = 11 then 30
  else 31

/-- Calendar validity, as enforced by `chrono::NaiveDate::parse_from_str`. -/
def validDate (dt : Date) : Bool :=
  1 ≤ dt.m && dt.m ≤ 12 && 1 ≤ dt.d && dt.d ≤ daysInMonth dt.y dt.m

/-- The date-shaped tail enforced by the SQL regexes
(`[0-9]{4}_[0-9]{2}_[0-9]{2}$`) combined with the subsequent
`NaiveDate::parse_from_str(_, "%Y_%m_%d")`: exactly 4 digits, `_`,
2 digits, `_`, 2 digits, end of string, and a calendar-valid date. -/
def dateShape (cs : List Char) : Option Date :=
  match readNDigits 4 0 cs with
  | none => none
  | some (yv, r1) =>
    match expectCh '_' r1 with
    | none => none
    | some r2 =>
      match readNDigits 2 0 r2 with
      | none => none
      | some (mv, r3) =>
        match expectCh '_' r3 with
        | none => none
        | some r4 =>
          match readNDigits 2 0 r4 with
          | none => none
          | some (dv, r5) =>
            if r5 = [] ∧ validDate ⟨yv, mv, dv⟩ then some ⟨yv, mv, dv⟩ else none

/-- The legacy pattern of `get_available_dates` (`database.rs:108-143`):
`^villages_[0-9]{4}_[0-9]{2}_[0-9]{2}$`, then `strip_prefix("villages_")`
and a chrono date parse.  Returns the date when the name matches. -/
def matchLegacy (name : List Char) : Option Date :=
  match dropPre "villages_".data name with
  | none => none
  | some rest => dateShape rest

/-- The per-server pattern of `get_available_dates_for_server`
(`database.rs:193-232`): `^villages_server_{id}_[0-9]{4}_[0-9]{2}_[0-9]{2}$`,
then `strip_prefix(format!("villages_server_{}_", id))` and a chrono date
parse. -/
def matchServerPattern (sid : Int) (name : List Char) : Option Date :=
  match dropPre ("villages_server_".data ++ (toString sid).data ++ ['_']) name with
  | none => none
  | some rest => dateShape rest

/-- Lexicographic strict order on character lists (PostgreSQL `ORDER BY
table_name` over the ASCII names at hand). -/
def charListLt : List Char → List Char → Bool
  | [], [] => false
  | [], _ :: _ => true
  | _ :: _, [] => false
  | a :: as_, b :: bs =>
      if a.toNat < b.toNat then true
      else if b.toNat < a.toNat then false
      else charListLt as_ bs

/-- Stable insertion of `x` into a list: `x` is placed before the first
element `y` for which `keep y x` is false. -/
def insSorted (keep : α → α → Bool) (x : α) : List α → List α
  | [] => [x]
  | y :: ys => if keep y x then y :: insSorted keep x ys else x :: y :: ys

/-- Stable insertion sort: with `keep y x` the strict "y sorts before x"
test, this produces the same output as any stable sort by that key. -/
def sortedBy (keep : α → α → Bool) (l : List α) : List α :=
  l.foldr (insSorted keep) []

/-- `get_available_dates` (`database.rs:108-143`): names matching the
legacy `villages_YYYY_MM_DD` pattern, ordered by name descending, each with
its total row count (`SELECT COUNT(*)`, no server filter). -/
def get_available_dates (st : DBState) : List (Date × Nat) :=
  (sortedBy (fun a b => charListLt b.1 a.1)
      (st.tables.filterMap
        (fun t => (matchLegacy t.1).map (fun d => (t.1, d, t.2.length))))).map
    (fun e => (e.2.1, e.2.2))

/-- `get_available_dates_for_server` (`database.rs:193-232`): names matching
the server pattern, ordered by name descending, each with the count of rows
having this `server_id`. -/
def get_available_dates_for_server (st : DBState) (sid : Int) : List (Date × Nat) :=
  (sortedBy (fun a b => charListLt b.1 a.1)
      (st.tables.filterMap
        (fun t =>
          (matchServerPattern sid t.1).map
            (fun d => (t.1, d, (t.2.filter (fun r => r.server_id = sid)).length))))).map
    (fun e => (e.2.1, e.2.2))

/-- `cleanup_old_tables` (`database.rs:145-161`): list the legacy-pattern
dates; if more than 10, drop — via `get_table_name_for_date`, i.e. the
*server-1* name — every table beyond the 10 most recent. -/
def cleanup_old_tables (st : DBState) : DBState :=
  let av := get_available_dates st
  if av.length > 10 then
    (av.drop 10).foldl (fun s e => dropTable (tableNameForDate e.1) s) st
  else st

/-- Result of a database-backed operation: `panic` models a Rust panic
(which aborts the whole request), `ok` a normal return. -/
inductive DBResult (α : Type) where
  | panic : DBResult α
  | ok : α → DBResult α
deriving DecidableEq

/-- The ingestion loop over the dump lines (`database.rs:382-422`): each
parsed line is inserted (tagged with the server id) and counted; parse
failures and non-matching lines are skipped; a panicking line aborts the
run. -/
def runLines (tname : List Char) (sid : Int) :
    DBState → Nat → List (List Char) → DBResult (DBState × Nat)
  | st, cnt, [] => .ok (st, cnt)
  | st, cnt, l :: ls =>
    match processLine l with
    | .panicked => .panic
    | .inserted v => runLines tname sid (insertRow tname (toRow sid v) st) (cnt + 1) ls
    | _ => runLines tname sid st cnt ls

/-- `execute_sql_for_server` (`database.rs:371-428`): ensure today's
partition exists, clear this server's rows in it, run the line loop, prune
old tables, and return the number of inserted villages.  The current date
(`chrono::Utc::now().date_naive()`) is passed explicitly. -/
def execute_sql_for_server (st : DBState) (sql : List Char) (sid : Int) (today : Date) :
    DBResult (DBState × Nat) :=
  let tname := serverTableName sid today
  let st1 := createTableIfAbsent tname st
  let st2 := deleteWhereServer tname sid st1
  match runLines tname sid st2 0 (linesOf sql) with
  | .panic => .panic
  | .ok (st3, cnt) => .ok (cleanup_old_tables st3, cnt)

/-- Records successfully parsed from a list of lines, in order. -/
def parsedOfLines (ls : List (List Char)) : List ParsedVillage :=
  ls.filterMap (fun l => match processLine l with | .inserted v => some v | _ => none)

/-- Records successfully parsed from a dump text, in order: exactly the
rows the ingestion loop inserts (and its returned count's length). -/
def parsedRecords (sql : List Char) : List ParsedVillage := parsedOfLines (linesOf sql)

/-- No table of the state matches the legacy `villages_YYYY_MM_DD` pattern.
This holds in every state the program can produce: every creation path
names tables `villages_server_{id}_{date}` (see
`create_table_for_server_and_date`), which never matches the legacy
pattern. -/
@[reducible]
def noLegacy (st : DBState) : Prop :=
  ∀ n ∈ st.tables.map Prod.fst, matchLegacy n = none

/-- A stagnant-village result record (`struct AfkVillage`, `database.rs:770-779`). -/
structure AfkVillage where
  village_name : List Char
  x : Int
  y : Int
  population : Int
  player_name : List Char
  alliance : Option (List Char)
  days_without_growth : Int
deriving DecidableEq

/-- Result of a fallible query: `panic` models a Rust panic (out-of-bounds
indexing), `err` an `anyhow::Error` return, `ok` a normal result. -/
inductive QueryResult (α : Type) where
  | panic : QueryResult α
  | err : String → QueryResult α
  | ok : α → QueryResult α
deriving DecidableEq

/-- The non-empty, non-Natars owner test of the AFK join
(`l.player IS NOT NULL AND l.player != '' AND l.player != 'Natars'`). -/
def playerOk (pl : Option (List Char)) : Bool :=
  match pl with
  | some p => ¬p = [] && ¬p = "Natars".data
  | none => false

/-- The quadrant dispatch of `find_afk_villages_for_server`
(`database.rs:1012-1018`): coordinate sign conditions per quadrant name,
`none` for an unrecognized quadrant. -/
def quadrantConds (q : String) : Option ((Int → Bool) × (Int → Bool)) :=
  if q = "NE" then some (fun x => decide (0 ≤ x), fun y => decide (0 ≤ y))
  else if q = "SE" then some (fun x => decide (0 ≤ x), fun y => decide (y < 0))
  else if q = "SW" then some (fun x => decide (x < 0), fun y => decide (y < 0))
  else if q = "NW" then some (fun x => decide (x < 0), fun y => decide (0 ≤ y))
  else none

/-- The join query of the AFK search (`database.rs:1021-1036`): latest rows
joined to comparison rows on identical coordinates and server, same named
non-Natars owner, population not increased, quadrant conditions on the
latest coordinates.  SQL leaves the row order of a join unspecified; the
model fixes the latest-major nested-loop order (no claim depends on it). -/
def afkCandidates (st : DBState) (sid : Int) (latestT compT : List Char)
    (xc yc : Int → Bool) : List Row :=
  (getTableRows st latestT).flatMap
    (fun l =>
      (getTableRows st compT).filterMap
        (fun c =>
          if l.x = c.x ∧ l.y = c.y ∧ l.server_id = c.server_id ∧ l.server_id = sid ∧
              c.server_id = sid ∧ playerOk l.player = true ∧ c.player = l.player ∧
              l.population ≤ c.population ∧ xc l.x = true ∧ yc l.y = true
          then some l else none))

/-- The per-player growth check of the AFK search (`database.rs:1050-1076`):
`SELECT COALESCE(SUM(l.population),0), COALESCE(SUM(c.population),0) FROM
latest l LEFT JOIN comparison c ON l.player = c.player AND l.server_id =
c.server_id WHERE l.server_id = $1 AND l.player = $2 GROUP BY l.player`.
Each latest row of the player pairs with every comparison row of the player
(or with a NULL row when there are none); `SUM` ignores NULLs; with no
latest rows the grouped query yields no row and `has_grown` is `false`. -/
def playerHasGrown (st : DBState) (sid : Int) (latestT compT : List Char)
    (p : List Char) : Bool :=
  let lrows := (getTableRows st latestT).filter
    (fun r => r.server_id = sid && r.player = some p)
  match lrows with
  | [] => false
  | _ =>
    let pairs := lrows.flatMap
      (fun l =>
        let crows := (getTableRows st compT).filter
          (fun c => c.player = some p && c.server_id = l.server_id)
        match crows with
        | [] => [(l.population, (none : Option Int))]
        | _ => crows.map (fun c => (l.population, some c.population)))
    let latestTotal : Int := (pairs.map (fun q => q.1)).sum
    let compTotal : Int := (pairs.map (fun q => q.2.getD 0)).sum
    decide (compTotal < latestTotal)

/-- `find_afk_villages_for_server` (`database.rs:979-1096`).  The
`days as usize` cast wraps modulo 2^64 and `available_dates[idx]` panics
when the index is out of bounds; both are modelled explicitly.  The result
list is sorted by population descending (stable, as Rust `sort_by`). -/
def find_afk_villages_for_server (st : DBState) (sid : Int) (quadrant : String)
    (days : Int) : QueryResult (List AfkVillage) :=
  let av := get_available_dates_for_server st sid
  let du : Nat := ((days % (2 ^ 64 : Int)).toNat)
  if av.length < (du + 1) % (2 ^ 64 : Nat) then .ok []
  else
    match av.get? 0, av.get? du with
    | some latest, some comp =>
      let latestT := serverTableName sid latest.1
      let compT := serverTableName sid comp.1
      if tableExists st latestT ∧ tableExists st compT then
        match quadrantConds quadrant with
        | none => .err ("Invalid quadrant: " ++ quadrant)
        | some conds =>
          let afk := (afkCandidates st sid latestT compT conds.1 conds.2).filterMap
            (fun l =>
              if playerHasGrown st sid latestT compT (l.player.getD []) then none
              else some (⟨l.village, l.x, l.y, l.population, l.player.getD [],
                l.alliance, days⟩ : AfkVillage))
          .ok (sortedBy (fun a b => decide (b.population < a.population)) afk)
      else .ok []
    | _, _ => .panic

/-- A village record as returned to the map API (`struct MapData`,
`main.rs:22-32`); the `SERIAL id` column is omitted (see `Row`). -/
structure MapData where
  name : List Char
  x : Int
  y : Int
  population : Int
  player : Option (List Char)
  alliance : Option (List Char)
  worldid : Option Int
deriving DecidableEq

/-- `get_villages_by_server_and_date` (`database.rs:234-274`): an absent
partition table yields an empty list; otherwise this server's rows, ordered
by population descending. -/
def get_villages_by_server_and_date (st : DBState) (sid : Int) (dt : Date) :
    QueryResult (List MapData) :=
  let tname := serverTableName sid dt
  if tableExists st tname then
    .ok ((sortedBy (fun a b => decide (b.population < a.population))
        ((getTableRows st tname).filter (fun r => r.server_id = sid))).map
      (fun r => ⟨r.village, r.x, r.y, r.population, r.player, r.alliance, r.worldid⟩))
  else .ok []

/-- Alliance statistics (`struct AllianceStats`, `database.rs:781-792`).
`growth_percentage` is an `f64` in the source; it is modelled as `Rat`
(the claim-relevant branch assigns the literal `0.0` with no floating-point
arithmetic).  The `alliance_link` field (a URL built from the active
server's address) is omitted: no claim mentions it. -/
structure AllianceStatsM where
  alliance_name : List Char
  alliance_id : Option Int
  member_count : Int
  village_count : Int
  total_population : Int
  average_population_per_village : Int
  population_growth : Int
  growth_percentage : Rat
deriving DecidableEq

/-- Alliance info result (`struct AllianceInfo`, `database.rs:794-798`). -/
structure AllianceInfoM where
  top_alliances : List AllianceStatsM
  total_alliances : Int
deriving DecidableEq

/-- First-occurrence deduplication (used to model `COUNT(DISTINCT ...)`). -/
def dedupFirst [DecidableEq α] : List α → List α → List α
  | _, [] => []
  | seen, x :: xs =>
      if x ∈ seen then dedupFirst seen xs else x :: dedupFirst (x :: seen) xs

/-- SQL `SUM` over a list of values: `NULL` (`none`) on an empty set. -/
def sqlSum (l : List Int) : Option Int :=
  match l with
  | [] => none
  | _ => some l.sum

/-- The rows feeding the alliance aggregation (`database.rs:1147-1155`):
this server's rows with a non-null, non-empty, non-Natars alliance. -/
def allianceRows (st : DBState) (sid : Int) (tname : List Char) : List Row :=
  (getTableRows st tname).filter
    (fun r =>
      r.server_id = sid &&
        match r.alliance with
        | some a => ¬a = [] && ¬a = "Natars".data
        | none => false)

/-- Group keys `(alliance, aid)` of the alliance aggregation, in first
occurrence order (the SQL output order among equal-population groups is
unspecified; no claim depends on it). -/
def allianceKeys (rows : List Row) : List (List Char × Option Int) :=
  dedupFirst [] (rows.map (fun r => (r.alliance.getD [], r.aid)))

/-- Aggregates of one `(alliance, aid)` group: distinct-member count,
village count, total population. -/
def allianceGroupStats (rows : List Row) (k : List Char × Option Int) :
    Nat × Nat × Int :=
  let g := rows.filter (fun r => r.alliance.getD [] = k.1 && r.aid = k.2)
  ((dedupFirst [] (g.filterMap (fun r => r.uid))).length, g.length,
    (g.map (fun r => r.population)).sum)

/-- Growth computation for one alliance (`database.rs:1180-1217`): when a
previous partition exists, `SELECT SUM(population) ... WHERE alliance = $2`
always returns exactly one row; `sqlx::query_scalar` typed at non-nullable
`i64` fails to decode a NULL sum (the alliance had no rows there), which
propagates as an error out of the whole function — modelled as
`Except.error`.  With a non-NULL previous total, growth is current minus
previous, and the percentage is 0 when the previous total is not positive
(avoiding the division). -/
def allianceGrowth (st : DBState) (sid : Int) (prevT : Option (List Char))
    (aname : List Char) (cur : Int) : Except String (Int × Rat) :=
  match prevT with
  | none => .ok (0, 0)
  | some pt =>
    if tableExists st pt then
      let prows := (getTableRows st pt).filter
        (fun r => r.server_id = sid && r.alliance = some aname)
      match sqlSum (prows.map (fun r => r.population)) with
      | none => .error "UnexpectedNullError"
      | some prev =>
        let growth := cur - prev
        .ok (growth, if 0 < prev then ((growth : Rat) / (prev : Rat)) * 100 else 0)
    else .ok (0, 0)

/-- Sequential processing with error propagation (the source's `for` loop
returns on the first failing query via `?`). -/
def mapExcept (f : α → Except String β) : List α → Except String (List β)
  | [] => .ok []
  | x :: xs =>
    match f x with
    | .error e => .error e
    | .ok b =>
      match mapExcept f xs with
      | .error e => .error e
      | .ok bs => .ok (b :: bs)

/-- Build the stats record for one ranked alliance group
(`database.rs:1172-1242`): member/village counts and totals from the
latest partition, growth against the previous partition, average
population as truncated integer division (0 when the group is empty —
unreachable for an actual group, kept for fidelity). -/
def buildAllianceStats (st : DBState) (sid : Int) (prevT : Option (List Char))
    (rows : List Row) (k : List Char × Option Int) : Except String AllianceStatsM :=
  let s := allianceGroupStats rows k
  match allianceGrowth st sid prevT k.1 s.2.2 with
  | .error e => .error e
  | .ok g =>
    .ok
      { alliance_name := k.1
        alliance_id := k.2
        member_count := (s.1 : Int)
        village_count := (s.2.1 : Int)
        total_population := s.2.2
        average_population_per_village :=
          if 0 < s.2.1 then s.2.2 / (s.2.1 : Int) else 0
        population_growth := g.1
        growth_percentage := g.2 }

/-- `get_alliance_info_for_server` (`database.rs:1109-1261`): empty result
when no partition exists (or the latest partition table is absent); else
the top-20 alliances of the latest partition by total population
(descending, stable), each with growth against the second-most-recent
partition, plus the total count of distinct alliance names. -/
def get_alliance_info_for_server (st : DBState) (sid : Int) :
    Except String AllianceInfoM :=
  match get_available_dates_for_server st sid with
  | [] => .ok ⟨[], 0⟩
  | latest :: rest =>
    let latestT := serverTableName sid latest.1
    if tableExists st latestT then
      let rows := allianceRows st sid latestT
      let ranked :=
        (sortedBy
            (fun a b =>
              decide ((allianceGroupStats rows b).2.2 < (allianceGroupStats rows a).2.2))
            (allianceKeys rows)).take 20
      let prevT :=
        match rest with
        | [] => none
        | p :: _ => some (serverTableName sid p.1)
      match mapExcept (buildAllianceStats st sid prevT rows) ranked with
      | .error e => .error e
      | .ok stats =>
        .ok ⟨stats, ((dedupFirst [] (rows.map (fun r => r.alliance.getD []))).length : Int)⟩
    else .ok ⟨[], 0⟩

deriving instance DecidableEq for Except

/-- A configured game server (`struct Server`, `database.rs:6-12`). -/
structure ServerRec where
  id : Int
  name : List Char
  url : List Char
  is_active : Bool
deriving DecidableEq

/-- The `servers` table with its `SERIAL` id sequence. -/
structure SrvState where
  nextId : Int
  servers : List ServerRec
deriving DecidableEq

/-- `get_all_servers` (`database.rs:555-571`): all servers, `ORDER BY name`. -/
def get_all_servers (st : SrvState) : List ServerRec :=
  sortedBy (fun a b => charListLt a.name b.name) st.servers

/-- `UPDATE servers SET is_active = FALSE` — first half of
`set_active_server` (`database.rs:609-622`). -/
def deactivateAll (st : SrvState) : SrvState :=
  ⟨st.nextId, st.servers.map (fun s => ⟨s.id, s.name, s.url, false⟩)⟩

/-- `set_active_server` (`database.rs:609-622`): set all servers inactive,
then set the given one active. -/
def set_active_server (st : SrvState) (sid : Int) : SrvState :=
  let st1 := deactivateAll st
  ⟨st1.nextId,
    st1.servers.map (fun s => if s.id = sid then ⟨s.id, s.name, s.url, true⟩ else s)⟩

/-- `add_server` (`database.rs:573-607`): insert the new server with
`is_active = false`; if it is then the only server, activate it and attempt
an auto-load of its data (the attempt's network outcome is external; the
returned flag records that it was attempted).  The `UNIQUE` name constraint
is not modelled (no claim involves duplicate names).  Returns the new
state, the returned `Server` row, and the auto-load-attempted flag. -/
def add_server (st : SrvState) (name url : List Char) : SrvState × ServerRec × Bool :=
  let srv : ServerRec := ⟨st.nextId, name, url, false⟩
  let st1 : SrvState := ⟨st.nextId + 1, st.servers ++ [srv]⟩
  if (get_all_servers st1).length = 1 then (set_active_server st1 srv.id, srv, true)
  else (st1, srv, false)

/-- A table name is well formed for `sid` when, if it matches the
per-server pattern, it is exactly the formatted name of the parsed date
(format/parse round-trip).  Every name the program itself creates
satisfies this. -/
def wfNameB (sid : Int) (name : List Char) : Bool :=
  match matchServerPattern sid name with
  | some d => name = serverTableName sid d
  | none => true

/-- All table names of the state are well formed for `sid`. -/
@[reducible]
def wfServerTables (sid : Int) (st : DBState) : Prop :=
  ∀ t ∈ st.tables, wfNameB sid t.1 = true

/-- Modelled from the spec: "the owner's *global* population (summed across
all of that owner's settlements present in both snapshots)" — settlements
identified by their coordinates.  First component: the owner's latest-
snapshot total over settlements present in both; second: the reference-
snapshot total over settlements present in both.  Spec-side comparator for
the stagnation claim; the source's growth query is `playerHasGrown`. -/
def ownerBothSnapshotTotal (latestRows compRows : List Row) (p : List Char) : Int × Int :=
  (((latestRows.filter
        (fun l => l.player = some p && compRows.any (fun c => c.x = l.x && c.y = l.y))).map
      (fun r => r.population)).sum,
    ((compRows.filter
        (fun c => c.player = some p && latestRows.any (fun l => l.x = c.x && l.y = c.y))).map
      (fun r => r.population)).sum)

/-- A valid `x_world` insert line used by the retention scenario. -/
def c1line : List Char := "INSERT INTO x_world VALUES (1,2,3,4,5,V,6,P,7,A,100);".data

/-- Eleven consecutive distinct dates. -/
def c1dates : List Date := (List.range 11).map (fun i => ⟨2024, 1, i + 1⟩)

/-- Chain the eleven ingestion runs for server 1, propagating a panic. -/
def c1fold : DBResult DBState :=
  c1dates.foldl
    (fun r d =>
      match r with
      | .panic => .panic
      | .ok s =>
        match execute_sql_for_server s c1line 1 d with
        | .panic => .panic
        | .ok p => .ok p.1)
    (.ok ⟨[]⟩)

/-- The state after the eleven ingestion runs (the accompanying theorem
proves the chain did not panic). -/
def c1final : DBState :=
  match c1fold with
  | .ok s => s
  | .panic => ⟨[]⟩

/-- Tokenizer input with a quoted comma: `1,2,'A, B',3`. -/
def c2wit : List Char := "1,2,".data ++ [squote] ++ "A, B".data ++ [squote] ++ ",3".data

/-- Two-partition state (server 1) used by the AFK validation witness. -/
def c3st : DBState :=
  ⟨[(serverTableName 1 ⟨2024, 1, 1⟩, []), (serverTableName 1 ⟨2024, 1, 2⟩, [])]⟩

/-- A row of the stagnation scenario: server 1, owner `p`, coordinates and
population as given. -/
def c4row (x y pop : Int) : Row :=
  ⟨1, none, x, y, none, none, ['V'], none, some ['P'], none, some ['A', 'L'], pop⟩

/-- Latest snapshot of the stagnation scenario: owner P keeps village
(1,1) at population 100 and grows village (2,2) from 100 to 300. -/
def c4latestRows : List Row := [c4row 1 1 100, c4row 2 2 300]

/-- Reference snapshot of the stagnation scenario: villages (1,1) and
(2,2) at population 100, plus an abandoned village (3,3) at 1000. -/
def c4compRows : List Row := [c4row 1 1 100, c4row 2 2 100, c4row 3 3 1000]

/-- Two dated partitions for server 1 holding the stagnation scenario. -/
def c4st : DBState :=
  ⟨[(serverTableName 1 ⟨2024, 1, 2⟩, c4latestRows),
    (serverTableName 1 ⟨2024, 1, 1⟩, c4compRows)]⟩

/-- The village the code reports in the stagnation scenario. -/
def c4afkVillage : AfkVillage := ⟨['V'], 1, 1, 100, ['P'], some ['A', 'L'], 1⟩

/-- First dump of the re-ingestion witness. -/
def c5sql1 : List Char := "INSERT INTO x_world VALUES (1,2,3,4,5,V,6,P,7,A,100);".data

/-- Second dump of the re-ingestion witness (a different record). -/
def c5sql2 : List Char := "INSERT INTO x_world VALUES (9,4,5,4,5,W,6,Q,7,B,200);".data

/-- The ingestion day of the re-ingestion witness. -/
def c5day : Date := ⟨2024, 1, 1⟩

/-- State after the first witness ingestion. -/
def c5st1 : DBState :=
  match execute_sql_for_server ⟨[]⟩ c5sql1 1 c5day with
  | .ok p => p.1
  | .panic => ⟨[]⟩

/-- State after the second witness ingestion. -/
def c5st2 : DBState :=
  match execute_sql_for_server c5st1 c5sql2 1 c5day with
  | .ok p => p.1
  | .panic => ⟨[]⟩

/-- A recognized `x_world` insert line whose value part is `)(`: both a
`(` and a `)` are present, but the last `)` precedes the first `(`. -/
def c6badLine : List Char := "INSERT INTO x_world VALUES )(".data

/-- A dump with one valid line followed by the panicking line. -/
def c6sql : List Char :=
  "INSERT INTO x_world VALUES (1,2,3,4,5,V,6,P,7,A,100);".data ++ ['\n'] ++ c6badLine

/-- An 11-field value list whose numeric fields all fail integer parsing. -/
def c7wit : List Char := "NULL,za,zb,NULL,NULL,V,NULL,P,NULL,A,zc".data

/-- The record parsed from `c7wit`. -/
def c7pv : ParsedVillage :=
  ⟨none, 0, 0, none, none, ['V'], none, some ['P'], none, some ['A'], 0⟩

/-- A row of the alliance scenario: server 1, owner Q, alliance `al`. -/
def c8rowA (pop : Int) (uid aid : Option Int) (al : List Char) : Row :=
  ⟨1, none, 0, 0, none, none, ['V'], uid, some ['Q'], aid, some al, pop⟩

/-- Alliance scenario: `AAA` present today, absent from the previous
partition (which is nonempty, holding only `BBB`). -/
def c8st : DBState :=
  ⟨[(serverTableName 1 ⟨2024, 1, 2⟩, [c8rowA 100 (some 1) (some 5) ['A', 'A', 'A']]),
    (serverTableName 1 ⟨2024, 1, 1⟩, [c8rowA 50 (some 2) (some 6) ['B', 'B', 'B']])]⟩

/-- Alliance scenario with presence at zero population: `AAA` exists in
the previous partition with total population 0. -/
def c8stZero : DBState :=
  ⟨[(serverTableName 1 ⟨2024, 1, 2⟩, [c8rowA 100 (some 1) (some 5) ['A', 'A', 'A']]),
    (serverTableName 1 ⟨2024, 1, 1⟩, [c8rowA 0 (some 2) (some 5) ['A', 'A', 'A']])]⟩

/-- The stats the code computes for `AAA` in the zero-previous scenario. -/
def c8statsZero : AllianceStatsM :=
  ⟨['A', 'A', 'A'], some 5, 1, 1, 100, 100, 100, 0⟩

/-! Theorems. -/

theorem isQuote_comma_false : isQuote ',' = false := by decide

theorem tok_parts_length (cs : List Char) : ∀ st : TokState,
    ((cs.foldl tokStep st).parts).length = st.parts.length + countTop st.inQ st.qc cs := by
  induction cs with
  | nil => intro st; simp [countTop]
  | cons c cs ih =>
    intro st
    obtain ⟨ps, cur, inq, qc⟩ := st
    rw [List.foldl_cons, ih]
    cases inq with
    | false =>
      by_cases hq : isQuote c = true
      · have hc : ¬c = ',' := by
          intro h; rw [h, isQuote_comma_false] at hq; exact Bool.noConfusion hq
        simp [tokStep, countTop, qNext, hq, hc]
      · rw [Bool.not_eq_true] at hq
        by_cases hc : c = ','
        · subst hc
          simp only [tokStep, countTop, qNext, hq, isQuote_comma_false,
            Bool.false_eq_true, if_false, and_self, if_true, List.length_append,
            List.length_cons, List.length_nil]
          omega
        · simp [tokStep, countTop, qNext, hq, hc]
    | true =>
      by_cases hq : isQuote c = true
      · by_cases hqc : c = qc
        · subst hqc
          simp [tokStep, countTop, qNext, hq]
        · simp [tokStep, countTop, qNext, hq, hqc]
      · rw [Bool.not_eq_true] at hq
        simp [tokStep, countTop, qNext, hq]

theorem tok_raw_rel (cs : List Char) :
    ∀ (ps : List (List Char)) (cur : List Char) (inq : Bool) (qc : Char),
      cs.foldl tokStep ⟨ps.map trimChars, cur, inq, qc⟩ =
        ⟨((cs.foldl rawStep ⟨ps, cur, inq, qc⟩).parts).map trimChars,
          (cs.foldl rawStep ⟨ps, cur, inq, qc⟩).current,
          (cs.foldl rawStep ⟨ps, cur, inq, qc⟩).inQ,
          (cs.foldl rawStep ⟨ps, cur, inq, qc⟩).qc⟩ := by
  induction cs with
  | nil => intro ps cur inq qc; rfl
  | cons c cs ih =>
    intro ps cur inq qc
    rw [List.foldl_cons, List.foldl_cons]
    cases inq with
    | false =>
      by_cases hq : isQuote c = true
      · have h1 : tokStep ⟨ps.map trimChars, cur, false, qc⟩ c =
            ⟨ps.map trimChars, cur ++ [c], true, c⟩ := by simp [tokStep, hq]
        have h2 : rawStep ⟨ps, cur, false, qc⟩ c = ⟨ps, cur ++ [c], true, c⟩ := by
          simp [rawStep, hq]
        rw [h1, h2]; exact ih ps (cur ++ [c]) true c
      · rw [Bool.not_eq_true] at hq
        by_cases hc : c = ','
        · subst hc
          have h1 : tokStep ⟨ps.map trimChars, cur, false, qc⟩ ',' =
              ⟨(ps ++ [cur]).map trimChars, [], false, qc⟩ := by
            simp [tokStep, hq, List.map_append]
          have h2 : rawStep ⟨ps, cur, false, qc⟩ ',' = ⟨ps ++ [cur], [], false, qc⟩ := by
            simp [rawStep, hq]
          rw [h1, h2]; exact ih (ps ++ [cur]) [] false qc
        · have h1 : tokStep ⟨ps.map trimChars, cur, false, qc⟩ c =
              ⟨ps.map trimChars, cur ++ [c], false, qc⟩ := by simp [tokStep, hq, hc]
          have h2 : rawStep ⟨ps, cur, false, qc⟩ c = ⟨ps, cur ++ [c], false, qc⟩ := by
            simp [rawStep, hq, hc]
          rw [h1, h2]; exact ih ps (cur ++ [c]) false qc
    | true =>
      by_cases hq : isQuote c = true
      · by_cases hqc : c = qc
        · subst hqc
          have h1 : tokStep ⟨ps.map trimChars, cur, true, c⟩ c =
              ⟨ps.map trimChars, cur ++ [c], false, c⟩ := by simp [tokStep, hq]
          have h2 : rawStep ⟨ps, cur, true, c⟩ c = ⟨ps, cur ++ [c], false, c⟩ := by
            simp [rawStep, hq]
          rw [h1, h2]; exact ih ps (cur ++ [c]) false c
        · have h1 : tokStep ⟨ps.map trimChars, cur, true, qc⟩ c =
              ⟨ps.map trimChars, cur ++ [c], true, qc⟩ := by simp [tokStep, hq, hqc]
          have h2 : rawStep ⟨ps, cur, true, qc⟩ c = ⟨ps, cur ++ [c], true, qc⟩ := by
            simp [rawStep, hq, hqc]
          rw [h1, h2]; exact ih ps (cur ++ [c]) true qc
      · rw [Bool.not_eq_true] at hq
        have h1 : tokStep ⟨ps.map trimChars, cur, true, qc⟩ c =
            ⟨ps.map trimChars, cur ++ [c], true, qc⟩ := by simp [tokStep, hq]
        have h2 : rawStep ⟨ps, cur, true, qc⟩ c = ⟨ps, cur ++ [c], true, qc⟩ := by
          simp [rawStep, hq]
        rw [h1, h2]; exact ih ps (cur ++ [c]) true qc

theorem tokRun_eq_raw (cs : List Char) :
    tokRun cs =
      ⟨((cs.foldl rawStep ⟨[], [], false, dquote⟩).parts).map trimChars,
        (cs.foldl rawStep ⟨[], [], false, dquote⟩).current,
        (cs.foldl rawStep ⟨[], [], false, dquote⟩).inQ,
        (cs.foldl rawStep ⟨[], [], false, dquote⟩).qc⟩ :=
  tok_raw_rel cs [] [] false dquote

theorem tokenize_eq_raw_map (cs : List Char) :
    tokenize cs = (rawTokenize cs).map trimChars := by
  unfold tokenize rawTokenize
  rw [tokRun_eq_raw]
  by_cases h : (cs.foldl rawStep ⟨[], [], false, dquote⟩).current = []
  · simp [h]
  · simp [h, List.map_append]

/-- C2, counterexample: the claim "for every values string with balanced
quoting the number of extracted fields equals the number of unquoted
commas plus one" fails at the balanced input `a,` — the tokenizer only
pushes the final field when nonempty, so the trailing empty field is
dropped and 1 field is produced instead of 2. -/
theorem tokenize_trailing_comma_counterexample :
    balanced ("a,".data) ∧ tokenize ("a,".data) = [['a']] ∧
      topCommas ("a,".data) = 1 ∧
      ¬(tokenize ("a,".data)).length = topCommas ("a,".data) + 1 := by decide

/-- C2 (amended): for every values string with balanced quoting whose text
after the last unquoted comma is nonempty, the tokenizer of
`parse_x_world_values` produces `topCommas + 1` fields — in particular a
comma inside a quoted span never splits a field — and the extracted fields
are exactly the whitespace-trimmed raw fields.  (When the trailing segment
is empty the final empty field is dropped, see the counterexample.) -/
theorem tokenize_field_count_amended (cs : List Char) (_hbal : balanced cs)
    (hcur : ¬(tokRun cs).current = []) :
    (tokenize cs).length = topCommas cs + 1 ∧
      tokenize cs = (rawTokenize cs).map trimChars := by
  refine ⟨?_, tokenize_eq_raw_map cs⟩
  have h := tok_parts_length cs ⟨[], [], false, dquote⟩
  simp only [List.length_nil, Nat.zero_add] at h
  unfold tokenize
  rw [if_neg hcur, List.length_append]
  unfold tokRun at hcur ⊢
  rw [h]
  rfl

/-- C2, witness: the amended count and trimming theorem applied to the
concrete balanced input `1,2,'A, B',3`. -/
theorem tokenize_field_count_amended_witness :
    balanced c2wit ∧ ¬(tokRun c2wit).current = [] ∧
      ((tokenize c2wit).length = topCommas c2wit + 1 ∧
        tokenize c2wit = (rawTokenize c2wit).map trimChars) :=
  ⟨by decide, by decide, tokenize_field_count_amended c2wit (by decide) (by decide)⟩

/-- C7: for every successfully parsed record, the per-column fallback
semantics of `parse_x_world_values` hold: coordinates default to 0 when
their field fails integer parsing, the optional identifiers (worldid, tid,
vid, uid, aid) become absent, and the population defaults to 0. -/
theorem parse_fallback_semantics (cs : List Char) (pv : ParsedVillage)
    (hp : parse_x_world_values cs = some pv) :
    (parseI32 ((tokenize cs).getD 1 []) = none → pv.x = 0) ∧
      (parseI32 ((tokenize cs).getD 2 []) = none → pv.y = 0) ∧
      (parseI32 ((tokenize cs).getD 0 []) = none → pv.worldid = none) ∧
      (parseI32 ((tokenize cs).getD 3 []) = none → pv.tid = none) ∧
      (parseI32 ((tokenize cs).getD 4 []) = none → pv.vid = none) ∧
      (parseI32 ((tokenize cs).getD 6 []) = none → pv.uid = none) ∧
      (parseI32 ((tokenize cs).getD 8 []) = none → pv.aid = none) ∧
      (parseI32 ((tokenize cs).getD 10 []) = none → pv.population = 0) := by
  simp only [parse_x_world_values] at hp
  by_cases h : (tokenize cs).length < 11
  · rw [if_pos h] at hp; exact Option.noConfusion hp
  · rw [if_neg h] at hp
    obtain rfl := Option.some.inj hp
    refine ⟨fun h1 => ?_, fun h1 => ?_, fun h1 => h1, fun h1 => h1, fun h1 => h1,
      fun h1 => h1, fun h1 => h1, fun h1 => ?_⟩
    · show (parseI32 ((tokenize cs).getD 1 [])).getD 0 = 0
      rw [h1]; rfl
    · show (parseI32 ((tokenize cs).getD 2 [])).getD 0 = 0
      rw [h1]; rfl
    · show (parseI32 ((tokenize cs).getD 10 [])).getD 0 = 0
      rw [h1]; rfl

/-- C7, witness: the fallback theorem applied to an 11-field record whose
numeric fields all fail integer parsing. -/
theorem parse_fallback_semantics_witness :
    parse_x_world_values c7wit = some c7pv ∧
      ((parseI32 ((tokenize c7wit).getD 1 []) = none → c7pv.x = 0) ∧
        (parseI32 ((tokenize c7wit).getD 2 []) = none → c7pv.y = 0) ∧
        (parseI32 ((tokenize c7wit).getD 0 []) = none → c7pv.worldid = none) ∧
        (parseI32 ((tokenize c7wit).getD 3 []) = none → c7pv.tid = none) ∧
        (parseI32 ((tokenize c7wit).getD 4 []) = none → c7pv.vid = none) ∧
        (parseI32 ((tokenize c7wit).getD 6 []) = none → c7pv.uid = none) ∧
        (parseI32 ((tokenize c7wit).getD 8 []) = none → c7pv.aid = none) ∧
        (parseI32 ((tokenize c7wit).getD 10 []) = none → c7pv.population = 0)) :=
  ⟨by decide, parse_fallback_semantics c7wit c7pv (by decide)⟩

set_option maxRecDepth 100000 in
/-- C6, code evaluation: the line `INSERT INTO x_world VALUES )(` is a
recognized insert line containing both a `(` and a `)`, yet instead of
being rejected with processing continuing, it panics (the slice
`values_part[start+1..end]` has `start + 1 = 2 > 0 = end`), and a batch
containing a valid line followed by it aborts entirely, returning no
count. -/
theorem ingest_line_paren_panic_run :
    processLine c6badLine = LineOutcome.panicked ∧
      execute_sql_for_server ⟨[]⟩ c6sql 1 ⟨2024, 1, 1⟩ = DBResult.panic := by decide

set_option maxRecDepth 100000 in
/-- C1, code evaluation: ingesting a valid dump for server 1 on 11 distinct
dates (none of the runs panics) leaves all 11 partitions in place — the
oldest one included — because `cleanup_old_tables` lists tables by the
legacy `villages_YYYY_MM_DD` pattern, which matches none of the
`villages_server_{id}_{date}` names ingestion creates (the legacy listing
is empty). -/
theorem cleanup_never_prunes_server_partitions :
    ¬c1fold = DBResult.panic ∧
      (get_available_dates_for_server c1final 1).length = 11 ∧
      tableExists c1final (serverTableName 1 ⟨2024, 1, 1⟩) = true ∧
      get_available_dates c1final = [] := by decide

set_option maxRecDepth 100000 in
/-- C4, code evaluation: in the two-snapshot scenario, owner P's global
population over settlements present in both snapshots grew from 200 to 400
(village (2,2) grew 100→300 while candidate (1,1) stayed at 100), so by
the claim the candidate must not be reported; the code's growth query
cross-joins P's 2 latest rows with P's 3 reference rows (comparing
3·400 = 1200 against 2·1200 = 2400), concludes "no growth", and reports
the village. -/
theorem afk_global_growth_check_run :
    find_afk_villages_for_server c4st 1 "NE" 1 = .ok [c4afkVillage] ∧
      (ownerBothSnapshotTotal c4latestRows c4compRows ['P']).2 <
        (ownerBothSnapshotTotal c4latestRows c4compRows ['P']).1 := by decide

set_option maxRecDepth 100000 in
/-- C8, code evaluation: with alliance `AAA` present in the latest
partition but absent from the (existing, nonempty) previous partition,
`SUM(population)` over the previous partition is SQL `NULL`; decoding it
at non-nullable `i64` fails, so the whole alliance-info request errors
instead of reporting growth percentage 0.  When the alliance is present
with previous total 0, the percentage is 0 as claimed. -/
theorem alliance_growth_null_sum_error_run :
    get_alliance_info_for_server c8st 1 = .error "UnexpectedNullError" ∧
      get_alliance_info_for_server c8stZero 1 = .ok ⟨[c8statsZero], 1⟩ := by decide

theorem updAux_map_fst (name : List Char) (f : List Row → List Row) :
    ∀ ts : List (List Char × List Row), (updAux name f ts).map Prod.fst = ts.map Prod.fst := by
  intro ts
  induction ts with
  | nil => rfl
  | cons t ts ih =>
    by_cases h : t.1 = name
    · simp [updAux, h]
    · simp [updAux, h, ih]

theorem tableExists_updateTable (name n : List Char) (f : List Row → List Row) (st : DBState) :
    tableExists (updateTable name f st) n = tableExists st n := by
  show (updAux name f st.tables).any (fun t => t.1 = n) = st.tables.any (fun t => t.1 = n)
  induction st.tables with
  | nil => rfl
  | cons t ts ih =>
    by_cases h : t.1 = name
    · simp [updAux, h]
    · simp [updAux, h, ih]

theorem updAux_find (name : List Char) (f : List Row → List Row) :
    ∀ ts : List (List Char × List Row),
      (updAux name f ts).find? (fun t => t.1 = name) =
        (ts.find? (fun t => t.1 = name)).map (fun t => (t.1, f t.2)) := by
  intro ts
  induction ts with
  | nil => rfl
  | cons t ts ih =>
    by_cases h : t.1 = name
    · simp [updAux, h]
    · simp [updAux, h, ih]

theorem getTableRows_updateTable (name : List Char) (f : List Row → List Row) (st : DBState)
    (h : tableExists st name = true) :
    getTableRows (updateTable name f st) name = f (getTableRows st name) := by
  unfold getTableRows updateTable
  rw [updAux_find]
  unfold tableExists at h
  rw [List.any_eq_true] at h
  obtain ⟨t, ht, hp⟩ := h
  cases hf : st.tables.find? (fun t => t.1 = name) with
  | none =>
    rw [List.find?_eq_none] at hf
    exact absurd hp (hf t ht)
  | some t0 => simp

theorem getTableRows_insertRow (tname : List Char) (r : Row) (st : DBState)
    (hex : tableExists st tname = true) :
    getTableRows (insertRow tname r st) tname = getTableRows st tname ++ [r] :=
  getTableRows_updateTable tname _ st hex

theorem createTable_exists (name : List Char) (st : DBState) :
    tableExists (createTableIfAbsent name st) name = true := by
  unfold createTableIfAbsent
  by_cases h : tableExists st name = true
  · rw [if_pos h]; exact h
  · rw [if_neg h]
    show (st.tables ++ [(name, [])]).any (fun t => t.1 = name) = true
    simp

theorem createTable_fst (name : List Char) (st : DBState) :
    (createTableIfAbsent name st).tables.map Prod.fst = st.tables.map Prod.fst ∨
      (createTableIfAbsent name st).tables.map Prod.fst =
        st.tables.map Prod.fst ++ [name] := by
  unfold createTableIfAbsent
  by_cases h : tableExists st name = true
  · rw [if_pos h]; left; rfl
  · rw [if_neg h]; right; simp

theorem noLegacy_createTable (name : List Char) (st : DBState) (hL : noLegacy st)
    (hn : matchLegacy name = none) : noLegacy (createTableIfAbsent name st) := by
  intro m hm
  rcases createTable_fst name st with h | h
  · rw [h] at hm; exact hL m hm
  · rw [h, List.mem_append] at hm
    rcases hm with hm | hm
    · exact hL m hm
    · rw [List.mem_singleton] at hm; subst hm; exact hn

theorem noLegacy_updateTable (name : List Char) (f : List Row → List Row) (st : DBState)
    (hL : noLegacy st) : noLegacy (updateTable name f st) := by
  intro m hm
  rw [show (updateTable name f st).tables = updAux name f st.tables from rfl,
    updAux_map_fst] at hm
  exact hL m hm

theorem get_available_dates_noLegacy (st : DBState) (hL : noLegacy st) :
    get_available_dates st = [] := by
  unfold get_available_dates
  have h : st.tables.filterMap
      (fun t => (matchLegacy t.1).map (fun d => (t.1, d, t.2.length))) = [] := by
    rw [List.filterMap_eq_nil_iff]
    intro t ht
    rw [hL t.1 (List.mem_map_of_mem _ ht)]
    rfl
  rw [h]
  rfl

theorem cleanup_noLegacy (st : DBState) (hL : noLegacy st) : cleanup_old_tables st = st := by
  unfold cleanup_old_tables
  rw [get_available_dates_noLegacy st hL]
  rfl

theorem dropPre_villages (r : List Char) :
    dropPre "villages_".data ("villages_server_".data ++ r) =
      some ("server_".data ++ r) := rfl

theorem dateShape_server (r : List Char) : dateShape ("server_".data ++ r) = none := rfl

theorem matchLegacy_serverTableName (sid : Int) (dt : Date) :
    matchLegacy (serverTableName sid dt) = none := by
  unfold matchLegacy serverTableName
  rw [List.append_assoc, List.append_assoc, dropPre_villages]
  exact dateShape_server _

theorem runLines_spec (tname : List Char) (sid : Int) :
    ∀ (ls : List (List Char)) (st : DBState) (cnt : Nat) (st' : DBState) (cnt' : Nat),
      tableExists st tname = true →
      runLines tname sid st cnt ls = .ok (st', cnt') →
      getTableRows st' tname = getTableRows st tname ++ (parsedOfLines ls).map (toRow sid) ∧
        cnt' = cnt + (parsedOfLines ls).length ∧
        st'.tables.map Prod.fst = st.tables.map Prod.fst := by
  intro ls
  induction ls with
  | nil =>
    intro st cnt st' cnt' hex h
    simp only [runLines] at h
    have h' := DBResult.ok.inj h
    have hst : st = st' := congrArg Prod.fst h'
    have hcnt : cnt = cnt' := congrArg Prod.snd h'
    subst hst; subst hcnt
    simp [parsedOfLines]
  | cons l ls ih =>
    intro st cnt st' cnt' hex h
    simp only [runLines] at h
    cases hpl : processLine l with
    | panicked => rw [hpl] at h; exact DBResult.noConfusion h
    | inserted v =>
      rw [hpl] at h
      have hex2 : tableExists (insertRow tname (toRow sid v) st) tname = true := by
        unfold insertRow; rw [tableExists_updateTable]; exact hex
      obtain ⟨ha, hb, hc⟩ := ih (insertRow tname (toRow sid v) st) (cnt + 1) st' cnt' hex2 h
      refine ⟨?_, ?_, ?_⟩
      · rw [ha, getTableRows_insertRow tname _ st hex, List.append_assoc]
        congr 1
        simp [parsedOfLines, List.filterMap_cons, hpl]
      · rw [hb]
        simp [parsedOfLines, List.filterMap_cons, hpl]
        omega
      · rw [hc]
        exact updAux_map_fst tname _ st.tables
    | skipped =>
      rw [hpl] at h
      obtain ⟨ha, hb, hc⟩ := ih st cnt st' cnt' hex h
      exact ⟨by rw [ha]; congr 2; simp [parsedOfLines, List.filterMap_cons, hpl],
        by rw [hb]; simp [parsedOfLines, List.filterMap_cons, hpl], hc⟩
    | noList =>
      rw [hpl] at h
      obtain ⟨ha, hb, hc⟩ := ih st cnt st' cnt' hex h
      exact ⟨by rw [ha]; congr 2; simp [parsedOfLines, List.filterMap_cons, hpl],
        by rw [hb]; simp [parsedOfLines, List.filterMap_cons, hpl], hc⟩
    | parseFailed =>
      rw [hpl] at h
      obtain ⟨ha, hb, hc⟩ := ih st cnt st' cnt' hex h
      exact ⟨by rw [ha]; congr 2; simp [parsedOfLines, List.filterMap_cons, hpl],
        by rw [hb]; simp [parsedOfLines, List.filterMap_cons, hpl], hc⟩

theorem ingest_spec (st st' : DBState) (n : Nat) (sid : Int) (today : Date) (sql : List Char)
    (hL : noLegacy st) (h : execute_sql_for_server st sql sid today = .ok (st', n)) :
    noLegacy st' ∧
      (getTableRows st' (serverTableName sid today)).filter (fun r => r.server_id = sid) =
        (parsedRecords sql).map (toRow sid) ∧
      n = (parsedRecords sql).length := by
  simp only [execute_sql_for_server] at h
  cases hr : runLines (serverTableName sid today) sid
      (deleteWhereServer (serverTableName sid today) sid
        (createTableIfAbsent (serverTableName sid today) st)) 0 (linesOf sql) with
  | panic => rw [hr] at h; exact DBResult.noConfusion h
  | ok p =>
    obtain ⟨st3, cnt⟩ := p
    rw [hr] at h
    have h' := DBResult.ok.inj h
    have hst' : st' = cleanup_old_tables st3 := (congrArg Prod.fst h').symm
    have hn : n = cnt := (congrArg Prod.snd h').symm
    have hex1 : tableExists (createTableIfAbsent (serverTableName sid today) st)
        (serverTableName sid today) = true := createTable_exists _ st
    have hex2 : tableExists (deleteWhereServer (serverTableName sid today) sid
        (createTableIfAbsent (serverTableName sid today) st))
        (serverTableName sid today) = true := by
      unfold deleteWhereServer
      rw [tableExists_updateTable]
      exact hex1
    obtain ⟨ha, hb, hc⟩ := runLines_spec (serverTableName sid today) sid (linesOf sql) _ 0
      st3 cnt hex2 hr
    have hrows2 : (getTableRows (deleteWhereServer (serverTableName sid today) sid
        (createTableIfAbsent (serverTableName sid today) st)) (serverTableName sid today)).filter
        (fun r => r.server_id = sid) = [] := by
      unfold deleteWhereServer
      rw [getTableRows_updateTable _ _ _ hex1, List.filter_filter]
      apply List.filter_eq_nil_iff.mpr
      intro a _
      by_cases hs : a.server_id = sid <;> simp [hs]
    have hL1 : noLegacy (createTableIfAbsent (serverTableName sid today) st) :=
      noLegacy_createTable _ st hL (matchLegacy_serverTableName sid today)
    have hL2 : noLegacy (deleteWhereServer (serverTableName sid today) sid
        (createTableIfAbsent (serverTableName sid today) st)) :=
      noLegacy_updateTable _ _ _ hL1
    have hL3 : noLegacy st3 := by
      intro m hm
      rw [hc] at hm
      exact hL2 m hm
    have hclean : cleanup_old_tables st3 = st3 := cleanup_noLegacy st3 hL3
    subst hst'
    rw [hclean]
    refine ⟨hL3, ?_, ?_⟩
    · rw [ha, List.filter_append, hrows2, List.nil_append]
      apply List.filter_eq_self.mpr
      intro a hma
      rw [List.mem_map] at hma
      obtain ⟨v, _, hv⟩ := hma
      subst hv
      simp [toRow]
    · rw [hn, hb]
      simp [parsedRecords]

/-- C5: re-ingesting for the same (server, today) twice leaves the
(server, today) partition holding exactly the rows of the second ingestion
(no rows from a prior load survive), and the returned count equals the
second ingestion's accepted-record count.  The `noLegacy` hypothesis holds
in every state the program can produce (no code path creates a table whose
name matches the legacy `villages_YYYY_MM_DD` pattern). -/
theorem reingest_same_day_idempotent (st st1 st2 : DBState) (n1 n2 : Nat) (sid : Int)
    (today : Date) (sql1 sql2 : List Char) (hL : noLegacy st)
    (h1 : execute_sql_for_server st sql1 sid today = .ok (st1, n1))
    (h2 : execute_sql_for_server st1 sql2 sid today = .ok (st2, n2)) :
    (getTableRows st2 (serverTableName sid today)).filter (fun r => r.server_id = sid) =
        (parsedRecords sql2).map (toRow sid) ∧
      n2 = (parsedRecords sql2).length := by
  obtain ⟨hL1, -, -⟩ := ingest_spec st st1 n1 sid today sql1 hL h1
  obtain ⟨-, hb, hc⟩ := ingest_spec st1 st2 n2 sid today sql2 hL1 h2
  exact ⟨hb, hc⟩

set_option maxRecDepth 100000 in
/-- C5, witness: the re-ingestion theorem applied to two concrete dumps
loaded into an initially empty store on the same day. -/
theorem reingest_same_day_idempotent_witness :
    noLegacy (⟨[]⟩ : DBState) ∧
      execute_sql_for_server ⟨[]⟩ c5sql1 1 c5day = .ok (c5st1, 1) ∧
      execute_sql_for_server c5st1 c5sql2 1 c5day = .ok (c5st2, 1) ∧
      ((getTableRows c5st2 (serverTableName 1 c5day)).filter (fun r => r.server_id = 1) =
          (parsedRecords c5sql2).map (toRow 1) ∧
        1 = (parsedRecords c5sql2).length) :=
  ⟨by decide, by decide, by decide,
    reingest_same_day_idempotent ⟨[]⟩ c5st1 c5st2 1 1 1 c5day c5sql1 c5sql2 (by decide)
      (by decide) (by decide)⟩

theorem mem_insSorted (keep : α → α → Bool) (x a : α) :
    ∀ l : List α, a ∈ insSorted keep x l ↔ a = x ∨ a ∈ l := by
  intro l
  induction l with
  | nil => simp [insSorted]
  | cons y ys ih =>
    by_cases h : keep y x = true
    · simp only [insSorted, h, if_true, List.mem_cons, ih]
      tauto
    · simp only [insSorted, h, if_false, Bool.false_eq_true, List.mem_cons]

theorem mem_sortedBy (keep : α → α → Bool) (a : α) :
    ∀ l : List α, a ∈ sortedBy keep l ↔ a ∈ l := by
  intro l
  induction l with
  | nil => exact Iff.rfl
  | cons x xs ih =>
    show a ∈ insSorted keep x (sortedBy keep xs) ↔ a ∈ x :: xs
    rw [mem_insSorted, ih, List.mem_cons]

theorem av_mem_exists (st : DBState) (sid : Int) (e : Date × Nat)
    (hwf : wfServerTables sid st)
    (he : e ∈ get_available_dates_for_server st sid) :
    tableExists st (serverTableName sid e.1) = true := by
  unfold get_available_dates_for_server at he
  rw [List.mem_map] at he
  obtain ⟨tr, htr, hproj⟩ := he
  rw [mem_sortedBy, List.mem_filterMap] at htr
  obtain ⟨t, ht, hmap⟩ := htr
  cases hm : matchServerPattern sid t.1 with
  | none => rw [hm] at hmap; exact Option.noConfusion hmap
  | some d =>
    rw [hm] at hmap
    obtain rfl := Option.some.inj hmap
    have hwft := hwf t ht
    unfold wfNameB at hwft
    rw [hm] at hwft
    have hname : t.1 = serverTableName sid d := of_decide_eq_true hwft
    have he1 : e.1 = d := by rw [← hproj]
    rw [he1, ← hname]
    unfold tableExists
    rw [List.any_eq_true]
    exact ⟨t, ht, by simp⟩

/-- C3, counterexample: the claim "days outside [1,10] or an unrecognized
quadrant is rejected as an input-validation failure; the function returns
an error for such input" is false: `days = 0` (below the range) with a
valid quadrant, and an unrecognized quadrant `XX` with `days = 3`, both
return `Ok` (the empty result), not an error. -/
theorem afk_invalid_inputs_not_rejected :
    find_afk_villages_for_server ⟨[]⟩ 1 "NE" 0 = .ok [] ∧
      find_afk_villages_for_server ⟨[]⟩ 1 "XX" 3 = .ok [] := by decide

/-- C3 (amended): `find_afk_villages_for_server` performs no validation of
`days` at all: for any non-negative in-`i32`-range `days` and any
unrecognized quadrant string, when fewer than `days + 1` partitions exist
the result is `Ok []` (the quadrant is never inspected), and only when
enough partitions exist is the invalid quadrant rejected with an error —
after the partition-listing and table-existence queries have already run.
The `wfServerTables` hypothesis (names round-trip through the date format)
holds for every table the program itself creates. -/
theorem afk_validation_amended (st : DBState) (sid : Int) (q : String) (days : Int)
    (h0 : 0 ≤ days) (h31 : days < 2 ^ 31)
    (hq : ¬q = "NE" ∧ ¬q = "SE" ∧ ¬q = "SW" ∧ ¬q = "NW")
    (hwf : wfServerTables sid st) :
    find_afk_villages_for_server st sid q days =
      if (get_available_dates_for_server st sid).length < days.toNat + 1
      then .ok [] else .err ("Invalid quadrant: " ++ q) := by
  have h31' : days < 2147483648 := by
    rw [show (2 : Int) ^ 31 = 2147483648 from by norm_num] at h31
    exact h31
  have hemod : days % ((2 : Int) ^ 64) = days := by
    apply Int.emod_eq_of_lt h0
    rw [show (2 : Int) ^ 64 = 18446744073709551616 from by norm_num]
    omega
  have htoNat : days.toNat < 2147483648 := by omega
  have hmod : (days.toNat + 1) % ((2 : Nat) ^ 64) = days.toNat + 1 := by
    apply Nat.mod_eq_of_lt
    rw [show (2 : Nat) ^ 64 = 18446744073709551616 from by norm_num]
    omega
  simp only [find_afk_villages_for_server, hemod, hmod]
  by_cases hlen : (get_available_dates_for_server st sid).length < days.toNat + 1
  · rw [if_pos hlen, if_pos hlen]
  · rw [if_neg hlen, if_neg hlen]
    have hlt0 : 0 < (get_available_dates_for_server st sid).length := by omega
    have hltdu : days.toNat < (get_available_dates_for_server st sid).length := by omega
    rw [List.get?_eq_get hlt0, List.get?_eq_get hltdu]
    have hex0 := av_mem_exists st sid _ hwf
      (List.get_mem (get_available_dates_for_server st sid) 0 hlt0)
    have hexd := av_mem_exists st sid _ hwf
      (List.get_mem (get_available_dates_for_server st sid) days.toNat hltdu)
    have hqc : quadrantConds q = none := by
      unfold quadrantConds
      rw [if_neg hq.1, if_neg hq.2.1, if_neg hq.2.2.1, if_neg hq.2.2.2]
    show (if _ ∧ _ then _ else _) = _
    rw [if_pos ⟨hex0, hexd⟩, hqc]

/-- C3, witness: the amended validation theorem applied to a two-partition
state, quadrant `XX` and `days = 1` (enough partitions: the error branch). -/
theorem afk_validation_amended_witness :
    (0 : Int) ≤ 1 ∧ (1 : Int) < 2 ^ 31 ∧
      (¬"XX" = "NE" ∧ ¬"XX" = "SE" ∧ ¬"XX" = "SW" ∧ ¬"XX" = "NW") ∧
      wfServerTables 1 c3st ∧
      find_afk_villages_for_server c3st 1 "XX" 1 =
        if (get_available_dates_for_server c3st 1).length < (1 : Int).toNat + 1
        then .ok [] else .err ("Invalid quadrant: " ++ "XX") :=
  ⟨by decide, by norm_num, by decide, by decide,
    afk_validation_amended c3st 1 "XX" 1 (by decide) (by norm_num) (by decide) (by decide)⟩

theorem insSorted_length (keep : α → α → Bool) (x : α) :
    ∀ l : List α, (insSorted keep x l).length = l.length + 1 := by
  intro l
  induction l with
  | nil => rfl
  | cons y ys ih =>
    by_cases h : keep y x = true
    · simp [insSorted, h, ih]
    · simp [insSorted, h]

theorem sortedBy_length (keep : α → α → Bool) :
    ∀ l : List α, (sortedBy keep l).length = l.length := by
  intro l
  induction l with
  | nil => rfl
  | cons x xs ih =>
    show (insSorted keep x (sortedBy keep xs)).length = xs.length + 1
    rw [insSorted_length, ih]

theorem find?_append_of_none {α : Type} {p : α → Bool} :
    ∀ l1 l2 : List α, l1.find? p = none → (l1 ++ l2).find? p = l2.find? p := by
  intro l1 l2 h
  induction l1 with
  | nil => simp
  | cons x xs ih =>
    by_cases hx : p x = true
    · rw [List.find?_cons_of_pos _ hx] at h
      exact Option.noConfusion h
    · rw [List.find?_cons_of_neg _ hx] at h
      rw [List.cons_append, List.find?_cons_of_neg _ hx]
      exact ih h

/-- C9: a server inserted by `add_server` into an empty server table is
automatically made active and a data auto-load is attempted for it; a
server added while other servers exist keeps `is_active = false` and no
auto-load is attempted.  The freshness hypothesis is the `SERIAL` primary
key invariant. -/
theorem add_server_first_server_active (st : SrvState) (name url : List Char)
    (hfresh : ∀ s ∈ st.servers, ¬s.id = st.nextId) :
    (st.servers = [] →
        ((add_server st name url).1.servers.find? (fun s => s.id = st.nextId)).map
            ServerRec.is_active = some true ∧
          (add_server st name url).2.2 = true) ∧
      (¬st.servers = [] →
        ((add_server st name url).1.servers.find? (fun s => s.id = st.nextId)).map
            ServerRec.is_active = some false ∧
          (add_server st name url).2.2 = false) := by
  obtain ⟨nid, srvs⟩ := st
  constructor
  · intro hemp
    simp only at hemp
    subst hemp
    simp [add_server, get_all_servers, sortedBy, insSorted, set_active_server,
      deactivateAll, List.find?]
  · intro hne
    simp only at hne
    have hlen : (get_all_servers ⟨nid + 1, srvs ++ [⟨nid, name, url, false⟩]⟩).length =
        srvs.length + 1 := by
      unfold get_all_servers
      rw [sortedBy_length]
      simp
    have hlen1 : ¬(get_all_servers ⟨nid + 1, srvs ++ [⟨nid, name, url, false⟩]⟩).length = 1 := by
      rw [hlen]
      cases srvs with
      | nil => exact absurd rfl hne
      | cons a l => simp
    simp only [add_server, if_neg hlen1]
    have hnone : srvs.find? (fun s => s.id = nid) = none := by
      rw [List.find?_eq_none]
      intro s hs
      simpa using hfresh s hs
    rw [find?_append_of_none srvs _ hnone]
    simp [List.find?]

/-- C9, witness: the first-server activation theorem applied to the empty
server table. -/
theorem add_server_first_server_active_witness :
    (∀ s ∈ (⟨1, []⟩ : SrvState).servers, ¬s.id = (⟨1, []⟩ : SrvState).nextId) ∧
      (((⟨1, []⟩ : SrvState).servers = [] →
          ((add_server ⟨1, []⟩ ['a'] ['u']).1.servers.find?
                (fun s => s.id = (⟨1, []⟩ : SrvState).nextId)).map
              ServerRec.is_active = some true ∧
            (add_server ⟨1, []⟩ ['a'] ['u']).2.2 = true) ∧
        (¬(⟨1, []⟩ : SrvState).servers = [] →
          ((add_server ⟨1, []⟩ ['a'] ['u']).1.servers.find?
                (fun s => s.id = (⟨1, []⟩ : SrvState).nextId)).map
              ServerRec.is_active = some false ∧
            (add_server ⟨1, []⟩ ['a'] ['u']).2.2 = false)) :=
  ⟨by decide, add_server_first_server_active ⟨1, []⟩ ['a'] ['u'] (by decide)⟩

/-- C10: reading villages for a (server, date) whose partition table does
not exist returns the empty list rather than an error, and alliance info
for a server with no partitions returns an empty top-alliances list with
total 0 rather than an error.  (The source's further guard for a listed
but absent latest partition table is unreachable in this sequential model,
where the listing is derived from the same state as the existence check.) -/
theorem missing_partition_returns_empty (st : DBState) (sid sid2 : Int) (dt : Date)
    (h1 : tableExists st (serverTableName sid dt) = false)
    (h2 : get_available_dates_for_server st sid2 = []) :
    get_villages_by_server_and_date st sid dt = .ok [] ∧
      get_alliance_info_for_server st sid2 = .ok ⟨[], 0⟩ := by
  constructor
  · simp [get_villages_by_server_and_date, h1]
  · unfold get_alliance_info_for_server
    rw [h2]

/-- C10, witness: the empty-degradation theorem applied to the empty store. -/
theorem missing_partition_returns_empty_witness :
    tableExists ⟨[]⟩ (serverTableName 1 ⟨2024, 1, 1⟩) = false ∧
      get_available_dates_for_server ⟨[]⟩ 1 = [] ∧
      (get_villages_by_server_and_date ⟨[]⟩ 1 ⟨2024, 1, 1⟩ = .ok [] ∧
        get_alliance_info_for_server ⟨[]⟩ 1 = .ok ⟨[], 0⟩) :=
  ⟨by decide, by decide,
    missing_partition_returns_empty ⟨[]⟩ 1 1 ⟨2024, 1, 1⟩ (by decide) (by decide)⟩

end TravianMap
